import Mathlib

/-!
Verification of the session-persistence and incremental-extraction engine of
the LinkedIn browser MCP server (`linkedin_browser_mcp.py`).

The Python source is shallowly embedded below:
* page-URL tests (`'login' in page.url`, URL validation of profile/post URLs)
  become an executable substring test on character lists;
* the scroll/extract/dedup loop of `do_browse_feed` / `do_search_posts`
  becomes `collect_loop`, explicit in its fuel (`range(min(count + 2, 10))`),
  its executed-iteration count and its scroll count;
* the cookie vault (`save_cookies` / `load_cookies`) becomes pure functions
  over an explicit file-system state, with the Fernet decrypt + JSON parse
  pipeline abstracted as a fallible function supplied by the caller;
* the file-system side effects of `save_cookies` become an explicit operation
  trace (`FsOp`), so that claims about atomic-rename discipline and file
  permissions can be stated;
* the single-shot extraction of `do_search_profiles` and the page script of
  `do_interact_post` become folds over candidate records supplied by the
  (excluded, site-specific) DOM glue.
-/

/-- Character-list version of `needle.isPrefixOf haystack`:
`listStartsWith p s` holds when `p` is an initial segment of `s`. -/
def listStartsWith : List Char → List Char → Bool
  | [], _ => true
  | _ :: _, [] => false
  | p :: ps, s :: ss => p == s && listStartsWith ps ss

/-- `listHasSub p s`: `p` occurs contiguously somewhere in `s`. -/
def listHasSub (p : List Char) : List Char → Bool
  | [] => listStartsWith p []
  | s :: ss => listStartsWith p (s :: ss) || listHasSub p ss

/-- Python's substring test `needle in haystack` on strings. -/
def strContains (needle haystack : String) : Bool :=
  listHasSub needle.toList haystack.toList

/-- `'login' in page.url` — the post-navigation authentication check used by
every operation (lines 258, 338, 429, 508, 619 of the source). -/
def urlHasLogin (url : String) : Bool :=
  strContains "login" url

/-- `'linkedin.com/in/' not in profile_url` guard of `do_view_profile`. -/
def validProfileUrl (u : String) : Bool :=
  strContains "linkedin.com/in/" u

/-- URL guard of `do_interact_post`:
`'linkedin.com/posts/' not in post_url and 'linkedin.com/feed/update/' not in post_url`. -/
def validPostUrl (u : String) : Bool :=
  strContains "linkedin.com/posts/" u || strContains "linkedin.com/feed/update/" u

/-- One extracted post record, as assembled by the page script of
`do_browse_feed` / `do_search_posts`:
`{ urn, url, author, date, content, reactions, comments }`. -/
structure Post where
  urn : String
  url : String
  author : String
  date : String
  content : String
  reactions : String
  comments : String
deriving DecidableEq

/-- The inner merge loop of `do_browse_feed` (lines 312-314):
`for p in new_posts: if not any(existing['urn'] == p['urn'] for existing in posts): posts.append(p)`.
The accumulator is the running `posts` list, mutated while the batch is
traversed. -/
def addPost (posts : List Post) (p : Post) : List Post :=
  if posts.any (fun existing => existing.urn == p.urn) then posts else posts ++ [p]

/-- Folding the merge step over one extracted batch. -/
def addNewPosts (posts batch : List Post) : List Post :=
  batch.foldl addPost posts

/-- The scroll/extract loop of `do_browse_feed` (lines 265-320), also used
verbatim by `do_search_posts` (lines 435-489).  `extract i` is the batch the
page script returns on iteration `i` (the page content after `i` scrolls);
`fuel` is the remaining iterations of `range(min(count + 2, 10))`; `i` counts
executed iterations, `s` counts executed `window.scrollBy` calls.  Returns
the collected posts together with both counters. -/
def collect_loop (extract : Nat → List Post) (count : Nat) :
    Nat → Nat → Nat → List Post → List Post × Nat × Nat
  | 0, i, s, posts => (posts, i, s)
  | fuel + 1, i, s, posts =>
    let posts2 := addNewPosts posts (extract i)
    if count ≤ posts2.length then (posts2, i + 1, s)
    else collect_loop extract count fuel (i + 1) (s + 1) posts2

/-- The whole collection phase of `do_browse_feed`: loop over
`range(min(count + 2, 10))` starting from an empty `posts` list. -/
def browse_feed_collect (extract : Nat → List Post) (count : Nat) :
    List Post × Nat × Nat :=
  collect_loop extract count (min (count + 2) 10) 0 0 []

/-- The flat concatenation of the batches the page exposes on iterations
`i, i+1, ..., i+k-1`. -/
def batchSeg (extract : Nat → List Post) : Nat → Nat → List Post
  | _, 0 => []
  | i, k + 1 => extract i ++ batchSeg extract (i + 1) k

/-- The uniform result envelope `{"status": "success" | "error", ...}`. -/
inductive Envelope (α : Type) where
  | error (message : String)
  | success (payload : α)
deriving DecidableEq

/-- Success payload of `do_browse_feed` / `do_search_posts`:
`{"posts": posts[:count], "total_found": len(posts)}`. -/
structure FeedPayload where
  posts : List Post
  total_found : Nat
deriving DecidableEq

/-- Observable outcome of one operation: its envelope, how many times the
page-extraction script ran, how many scroll steps were issued, and whether
`save_cookies` was reached. -/
structure OpTrace (α : Type) where
  result : Envelope α
  extractCalls : Nat
  scrolls : Nat
  savedCookies : Bool
deriving DecidableEq

/-- `do_browse_feed` (lines 251-327).  `page_url` is the URL observed after
navigating to `https://www.linkedin.com/feed/`; `extract` is the page script
result stream.  On a login redirect the operation errors before any
extraction; otherwise it collects, saves cookies, and returns
`posts[:count]` with `total_found = len(posts)`. -/
def do_browse_feed (page_url : String) (extract : Nat → List Post) (count : Nat) :
    OpTrace FeedPayload :=
  if urlHasLogin page_url then
    ⟨Envelope.error "Not logged in", 0, 0, false⟩
  else
    let r := browse_feed_collect extract count
    ⟨Envelope.success ⟨r.1.take count, r.1.length⟩, r.2.1, r.2.2, true⟩

/-- A post batch element whose only distinguishing field is its urn; the other
fields are what the page script fills in for a typical feed card. -/
def mkPost (u : String) : Post :=
  ⟨u, "https://www.linkedin.com/feed/update/" ++ u ++ "/", "Author", "", "", "0", "0"⟩

/-- The batch stream of the spec's scenario: successive scrolls expose items
with keys `[a,b,c]`, `[b,c,d,e]`, `[d,e,f,g]`. -/
def scenarioExtract : Nat → List Post := fun i =>
  if i = 0 then [mkPost "a", mkPost "b", mkPost "c"]
  else if i = 1 then [mkPost "b", mkPost "c", mkPost "d", mkPost "e"]
  else [mkPost "d", mkPost "e", mkPost "f", mkPost "g"]

/-- Plaintext of a credential bundle:
`{"timestamp": int(time.time()), "cookies": [...]}` — cookie records kept
opaque. -/
structure CookieData where
  timestamp : Int
  cookies : List String
deriving DecidableEq

/-- Contents of the two vault files (`sessions/<platform>_cookies.json` and
`sessions/encryption.key`); `none` models a missing file, bytes are opaque
naturals. -/
structure VaultFs where
  cookie_file : Option (List Nat)
  key_file : Option (List Nat)
deriving DecidableEq

/-- Observable outcome of `load_cookies`: the boolean the function returns,
the vault files after the call (the bundle may have been unlinked), and the
cookies applied to the browsing context, if any. -/
structure LoadOutcome where
  loaded : Bool
  fs : VaultFs
  applied : Option (List String)
deriving DecidableEq

/-- `load_cookies` (lines 64-92).  `decryptParse key ciphertext` stands for
`json.loads(Fernet(key).decrypt(encrypted))`: `none` when decryption or
parsing raises (the source's `except` arm returns `False`), `some` with the
decoded bundle otherwise.  Missing bundle or key file returns `False`
up-front; an expired bundle (strictly older than 86400 seconds) is unlinked
and reported absent; otherwise the cookies are applied and `True` returned. -/
def load_cookies (decryptParse : List Nat → List Nat → Option CookieData)
    (fs : VaultFs) (now : Int) : LoadOutcome :=
  match fs.cookie_file, fs.key_file with
  | none, _ => ⟨false, fs, none⟩
  | some _, none => ⟨false, fs, none⟩
  | some encrypted, some key =>
    match decryptParse key encrypted with
    | none => ⟨false, fs, none⟩
    | some cookie_data =>
      if 86400 < now - cookie_data.timestamp then
        ⟨false, ⟨none, fs.key_file⟩, none⟩
      else
        ⟨true, fs, some cookie_data.cookies⟩

/-- One file-system side effect of the vault's save path. -/
inductive FsOp where
  | mkdir (path : String) (mode : Nat)
  | readFile (path : String)
  | writeFile (path : String)
  | rename (src dst : String)
deriving DecidableEq

/-- Directory created by `setup_sessions_directory`. -/
def sessions_dir : String := "sessions"

/-- `sessions/encryption.key`. -/
def key_file_path : String := "sessions/encryption.key"

/-- `sessions/<platform>_cookies.json`. -/
def cookie_file_path (platform : String) : String :=
  "sessions/" ++ platform ++ "_cookies.json"

/-- `setup_sessions_directory` (lines 33-36):
`sessions_dir.mkdir(mode=0o777, parents=True, exist_ok=True)`. -/
def setup_sessions_directory_ops : List FsOp :=
  [FsOp.mkdir sessions_dir 0o777]

/-- File-system side effects of `save_cookies` (lines 39-61), in program
order: ensure the sessions directory, read the key file if it exists else
generate and write a fresh key, then write the encrypted bundle directly to
`sessions/<platform>_cookies.json` with `open(cookie_file, 'wb')`. -/
def save_cookies_ops (key_file_exists : Bool) (platform : String) : List FsOp :=
  setup_sessions_directory_ops ++
    (if key_file_exists then [FsOp.readFile key_file_path]
     else [FsOp.writeFile key_file_path]) ++
    [FsOp.writeFile (cookie_file_path platform)]

/-- Whether an operation sequence ever installs `dst` via a rename (the
write-to-temp-then-atomic-rename discipline would make the final bundle
appear through such a rename). -/
def writesViaRename (ops : List FsOp) (dst : String) : Bool :=
  ops.any fun op =>
    match op with
    | FsOp.rename _ d => d == dst
    | _ => false

/-- A permission mode is restricted to the owning user when its group and
other bits are all clear. -/
def modeOwnerOnly (m : Nat) : Bool :=
  m &&& 0o077 == 0

/-- Success payload of `do_view_profile`:
`{"profile": profile, "url": profile_url}`; the extracted profile record
(assembled by the excluded DOM glue) is kept abstract. -/
structure ViewPayload (α : Type) where
  profile : α
  url : String
deriving DecidableEq

/-- `do_view_profile` (lines 500-608).  `profile_url` is the argument,
`page_url` the URL observed after navigation, `profile` the value the single
`page.evaluate` extraction would produce.  A malformed URL errors before any
navigation; a login redirect errors before extraction and before
`save_cookies`; otherwise extraction runs exactly once and cookies are
saved. -/
def do_view_profile {α : Type} (profile_url page_url : String) (profile : α) :
    OpTrace (ViewPayload α) :=
  if validProfileUrl profile_url = false then
    ⟨Envelope.error "Invalid LinkedIn profile URL", 0, 0, false⟩
  else if urlHasLogin page_url then
    ⟨Envelope.error "Not logged in", 0, 0, false⟩
  else
    ⟨Envelope.success ⟨profile, profile_url⟩, 1, 0, true⟩

/-- One profile record produced by the `do_search_profiles` page script. -/
structure ProfileRec where
  name : String
  headline : String
  location : String
  url : String
  connection_degree : String
deriving DecidableEq

/-- One candidate anchor examined by the `do_search_profiles` page script:
its `href`, its trimmed `innerText`, and the name / headline / location /
connection-degree strings the (excluded) text-parsing glue derives from the
surrounding container. -/
structure ProfileCand where
  href : String
  text : String
  name : String
  headline : String
  location : String
  degree : String

/-- `link.href.split('?')[0]`. -/
def hrefBase (href : String) : String :=
  String.mk (href.toList.takeWhile (fun c => c ≠ '?'))

/-- Body of the `profileLinks.forEach` callback in `do_search_profiles`
(lines 352-406), threading the `profiles` array and the `seenUrls` set:
stop adding once `count` profiles are held, dedup by the query-stripped URL,
skip anchors with fewer than 3 characters of text, and keep only candidates
whose derived name is informative. -/
def search_profiles_step (count : Nat) (acc : List ProfileRec × List String)
    (c : ProfileCand) : List ProfileRec × List String :=
  if count ≤ acc.1.length then acc
  else if hrefBase c.href ∈ acc.2 then acc
  else if c.text.length < 3 then acc
  else if c.name ≠ "Unknown" ∧ 1 < c.name.length then
    (acc.1 ++ [⟨c.name, c.headline.take 200, c.location.take 100, hrefBase c.href, c.degree⟩],
     acc.2 ++ [hrefBase c.href])
  else acc

/-- The single `page.evaluate` of `do_search_profiles`: one pass over the
currently rendered profile links. -/
def search_profiles_extract (count : Nat) (cands : List ProfileCand) :
    List ProfileRec :=
  (cands.foldl (search_profiles_step count) ([], [])).1

/-- Success payload of `do_search_profiles`:
`{"profiles": profiles, "count": len(profiles), "query": query}`. -/
structure SearchProfilesPayload where
  profiles : List ProfileRec
  count : Nat
  query : String
deriving DecidableEq

/-- `do_search_profiles` (lines 330-417).  After the auth check it runs the
extraction script once — there is no scroll loop around it — then saves
cookies and returns every profile the single pass produced. -/
def do_search_profiles (page_url : String) (cands : List ProfileCand)
    (query : String) (count : Nat) : OpTrace SearchProfilesPayload :=
  if urlHasLogin page_url then
    ⟨Envelope.error "Not logged in", 0, 0, false⟩
  else
    ⟨Envelope.success
        ⟨search_profiles_extract count cands,
         (search_profiles_extract count cands).length, query⟩,
     1, 0, true⟩

/-- One page-level interaction performed by `do_interact_post`. -/
inductive PageOp where
  | goto (url : String)
  | waitTimeout (ms : Nat)
  | clickCommentsButton
  | evaluateExtract
  | clickLike
  | submitComment (text : String)
deriving DecidableEq

/-- Success payload of `do_interact_post`:
`{"action": action, "post": ..., "comments": ..., "comments_found": len}`;
the extracted post record and comment records are kept abstract. -/
structure InteractPayload (β γ : Type) where
  action : String
  post : β
  comments : List γ
  comments_found : Nat
deriving DecidableEq

/-- Observable outcome of `do_interact_post`: envelope, the page
interactions performed in order, and whether `save_cookies` was reached. -/
structure InteractTrace (β γ : Type) where
  result : Envelope (InteractPayload β γ)
  pageOps : List PageOp
  savedCookies : Bool
deriving DecidableEq

/-- Page interactions of the happy path of `do_interact_post` (lines
616-714): navigate, settle 5 s, click the comments button if one is present
(then settle 2 s), and run the extraction script once. -/
def interact_page_ops (post_url : String) (hasCommentsBtn : Bool) : List PageOp :=
  [PageOp.goto post_url, PageOp.waitTimeout 5000] ++
    (if hasCommentsBtn then [PageOp.clickCommentsButton, PageOp.waitTimeout 2000] else []) ++
    [PageOp.evaluateExtract]

/-- `do_interact_post` (lines 611-723).  `post_url`, `action` and `comment`
are the tool arguments; `page_url` is the URL observed after navigation;
`hasCommentsBtn` is whether the comments-button locator matched; `post` and
`comments` are what the extraction script reads off the page.  Note the body
clicks no like button, submits no comment, and never reads `comment`: the
`action` argument is only echoed back in the payload. -/
def do_interact_post {β γ : Type} (post_url page_url : String)
    (hasCommentsBtn : Bool) (post : β) (comments : List γ)
    (action : String) (comment : Option String) : InteractTrace β γ :=
  if validPostUrl post_url = false then
    ⟨Envelope.error "Invalid LinkedIn post URL", [], false⟩
  else if urlHasLogin page_url then
    ⟨Envelope.error "Not logged in", [PageOp.goto post_url], false⟩
  else
    ⟨Envelope.success ⟨action, post, comments, comments.length⟩,
     interact_page_ops post_url hasCommentsBtn, true⟩

/-- Erase the echoed `action` field of a `do_interact_post` envelope. -/
def stripAction {β γ : Type} :
    Envelope (InteractPayload β γ) → Envelope (InteractPayload β γ)
  | Envelope.error m => Envelope.error m
  | Envelope.success p => Envelope.success ⟨"", p.post, p.comments, p.comments_found⟩

theorem addNewPosts_nil (posts : List Post) : addNewPosts posts [] = posts := rfl

theorem addNewPosts_cons (posts : List Post) (p : Post) (ps : List Post) :
    addNewPosts posts (p :: ps) = addNewPosts (addPost posts p) ps := rfl

theorem addNewPosts_append (posts l₁ l₂ : List Post) :
    addNewPosts posts (l₁ ++ l₂) = addNewPosts (addNewPosts posts l₁) l₂ := by
  simp [addNewPosts, List.foldl_append]

theorem addPost_eq_or (posts : List Post) (p : Post) :
    addPost posts p = posts ∨
      (addPost posts p = posts ++ [p] ∧ p.urn ∉ posts.map Post.urn) := by
  unfold addPost
  split
  · exact Or.inl rfl
  · rename_i hany
    refine Or.inr ⟨rfl, fun hmem => hany ?_⟩
    obtain ⟨e, he, heq⟩ := List.mem_map.mp hmem
    exact List.any_eq_true.mpr ⟨e, he, by simp [heq]⟩

theorem addPost_nodup (posts : List Post) (p : Post)
    (h : (posts.map Post.urn).Nodup) : ((addPost posts p).map Post.urn).Nodup := by
  rcases addPost_eq_or posts p with heq | ⟨heq, hnot⟩
  · rw [heq]; exact h
  · rw [heq, List.map_append]
    refine List.Nodup.append h (List.nodup_singleton _) ?_
    intro a ha hb
    simp only [List.map_cons, List.map_nil, List.mem_singleton] at hb
    exact hnot (hb ▸ ha)

theorem addNewPosts_nodup (batch : List Post) : ∀ posts : List Post,
    (posts.map Post.urn).Nodup → ((addNewPosts posts batch).map Post.urn).Nodup := by
  induction batch with
  | nil => intro posts h; exact h
  | cons p ps ih =>
    intro posts h
    rw [addNewPosts_cons]
    exact ih _ (addPost_nodup posts p h)

theorem addNewPosts_sublist (batch : List Post) : ∀ posts : List Post,
    ∃ t, addNewPosts posts batch = posts ++ t ∧ t.Sublist batch := by
  induction batch with
  | nil => intro posts; exact ⟨[], by simp [addNewPosts], List.nil_sublist _⟩
  | cons p ps ih =>
    intro posts
    rw [addNewPosts_cons]
    rcases addPost_eq_or posts p with heq | ⟨heq, _⟩
    · obtain ⟨t, ht, hs⟩ := ih posts
      exact ⟨t, by rw [heq, ht], List.Sublist.cons p hs⟩
    · obtain ⟨t, ht, hs⟩ := ih (posts ++ [p])
      refine ⟨p :: t, ?_, List.Sublist.cons₂ p hs⟩
      rw [heq, ht, List.append_assoc]
      rfl

theorem collect_loop_attempts (extract : Nat → List Post) (count : Nat) :
    ∀ fuel i s posts,
      (collect_loop extract count fuel i s posts).2.1 ≤ i + fuel := by
  intro fuel
  induction fuel with
  | zero => intro i s posts; simp [collect_loop]
  | succ n ih =>
    intro i s posts
    simp only [collect_loop]
    split
    · simp
    · have := ih (i + 1) (s + 1) (addNewPosts posts (extract i))
      omega

theorem collect_loop_nodup (extract : Nat → List Post) (count : Nat) :
    ∀ fuel i s posts, (posts.map Post.urn).Nodup →
      (((collect_loop extract count fuel i s posts).1).map Post.urn).Nodup := by
  intro fuel
  induction fuel with
  | zero => intro i s posts h; exact h
  | succ n ih =>
    intro i s posts h
    simp only [collect_loop]
    split
    · exact addNewPosts_nodup _ _ h
    · exact ih (i + 1) (s + 1) _ (addNewPosts_nodup _ _ h)

theorem collect_loop_refine (extract : Nat → List Post) (count : Nat) :
    ∀ fuel i s posts, ∃ j, j ≤ fuel ∧
      (collect_loop extract count fuel i s posts).1 =
        addNewPosts posts (batchSeg extract i j) := by
  intro fuel
  induction fuel with
  | zero =>
    intro i s posts
    exact ⟨0, Nat.le_refl 0, rfl⟩
  | succ n ih =>
    intro i s posts
    simp only [collect_loop]
    split
    · refine ⟨1, by omega, ?_⟩
      simp [batchSeg, addNewPosts_append]
    · obtain ⟨j, hj, heq⟩ := ih (i + 1) (s + 1) (addNewPosts posts (extract i))
      refine ⟨j + 1, by omega, ?_⟩
      rw [heq, show batchSeg extract i (j + 1) = extract i ++ batchSeg extract (i + 1) j from rfl,
        addNewPosts_append]

theorem search_profiles_step_inv (count : Nat) (c : ProfileCand)
    (acc : List ProfileRec × List String)
    (h1 : (acc.1.map ProfileRec.url).Nodup)
    (h2 : ∀ u ∈ acc.1.map ProfileRec.url, u ∈ acc.2)
    (h3 : acc.1.length ≤ count) :
    ((search_profiles_step count acc c).1.map ProfileRec.url).Nodup ∧
      (∀ u ∈ (search_profiles_step count acc c).1.map ProfileRec.url,
        u ∈ (search_profiles_step count acc c).2) ∧
      (search_profiles_step count acc c).1.length ≤ count := by
  unfold search_profiles_step
  split
  · exact ⟨h1, h2, h3⟩
  · rename_i hcount
    split
    · exact ⟨h1, h2, h3⟩
    · rename_i hseen
      split
      · exact ⟨h1, h2, h3⟩
      · split
        · refine ⟨?_, ?_, ?_⟩
          · rw [List.map_append]
            have hnot : hrefBase c.href ∉ acc.1.map ProfileRec.url :=
              fun hmem => hseen (h2 _ hmem)
            refine List.Nodup.append h1 (List.nodup_singleton _) ?_
            intro a ha hb
            simp only [List.map_cons, List.map_nil, List.mem_singleton] at hb
            exact hnot (hb ▸ ha)
          · intro u hu
            rw [List.map_append] at hu
            rcases List.mem_append.mp hu with hu | hu
            · exact List.mem_append.mpr (Or.inl (h2 _ hu))
            · simp only [List.map_cons, List.map_nil, List.mem_singleton] at hu
              exact List.mem_append.mpr (Or.inr (by simp [hu]))
          · simp only [List.length_append, List.length_singleton]
            omega
        · exact ⟨h1, h2, h3⟩

theorem search_profiles_fold_inv (count : Nat) (cands : List ProfileCand) :
    ∀ acc : List ProfileRec × List String,
      (acc.1.map ProfileRec.url).Nodup →
      (∀ u ∈ acc.1.map ProfileRec.url, u ∈ acc.2) →
      acc.1.length ≤ count →
      (((cands.foldl (search_profiles_step count) acc).1.map ProfileRec.url).Nodup ∧
        (cands.foldl (search_profiles_step count) acc).1.length ≤ count) := by
  induction cands with
  | nil => intro acc h1 h2 h3; exact ⟨h1, h3⟩
  | cons c cs ih =>
    intro acc h1 h2 h3
    obtain ⟨g1, g2, g3⟩ := search_profiles_step_inv count c acc h1 h2 h3
    exact ih (search_profiles_step count acc c) g1 g2 g3

theorem search_profiles_extract_spec (count : Nat) (cands : List ProfileCand) :
    ((search_profiles_extract count cands).map ProfileRec.url).Nodup ∧
      (search_profiles_extract count cands).length ≤ count := by
  have := search_profiles_fold_inv count cands ([], [])
    (by simp) (by simp) (by simp)
  exact this

/-- C1: For every target count and every stream of extracted batches, the
posts `do_browse_feed` collects have pairwise-distinct urns; the returned
slice `posts[:count]` also has pairwise-distinct urns, is of length at most
`count`, and the collected sequence is exactly the first-seen dedup of the
concatenation of the batches actually consumed (hence a subsequence of them,
preserving first-observed order).  In particular, `browse_feed(count = 5)`
over batches with keys `[a,b,c]`, `[b,c,d,e]`, `[d,e,f,g]` returns exactly
the posts keyed `[a,b,c,d,e]` in that order, stopping after the second
iteration. -/
theorem browse_feed_dedup_first_seen_c1 :
    (∀ (extract : Nat → List Post) (count : Nat),
      (((browse_feed_collect extract count).1.take count).map Post.urn).Nodup ∧
      ((browse_feed_collect extract count).1.take count).length ≤ count ∧
      ∃ j, j ≤ min (count + 2) 10 ∧
        (browse_feed_collect extract count).1 =
          addNewPosts [] (batchSeg extract 0 j) ∧
        ((browse_feed_collect extract count).1).Sublist (batchSeg extract 0 j)) ∧
    (do_browse_feed "https://www.linkedin.com/feed/" scenarioExtract 5).result =
      Envelope.success
        ⟨[mkPost "a", mkPost "b", mkPost "c", mkPost "d", mkPost "e"], 5⟩ ∧
    (browse_feed_collect scenarioExtract 5).2.1 = 2 := by
  refine ⟨fun extract count => ⟨?_, ?_, ?_⟩, by decide, by decide⟩
  · have h := collect_loop_nodup extract count (min (count + 2) 10) 0 0 [] (by simp)
    rw [List.map_take]
    exact List.Nodup.sublist (List.take_sublist _ _) h
  · exact List.length_take_le _ _
  · obtain ⟨j, hj, heq⟩ :=
      collect_loop_refine extract count (min (count + 2) 10) 0 0 []
    obtain ⟨t, ht, hs⟩ := addNewPosts_sublist (batchSeg extract 0 j) []
    refine ⟨j, hj, heq, ?_⟩
    show (collect_loop extract count (min (count + 2) 10) 0 0 []).1.Sublist _
    rw [heq, ht]
    simpa using hs

/-- C2: the render/extract/scroll loop of `do_browse_feed` executes at most
`min(count + 2, 10)` iterations, and whenever the post-navigation URL is not
a login redirect the operation returns a success envelope holding whatever
was collected (truncated to `count`, with `total_found` the collected
length) — also when the budget ran out before `count` items were found. -/
theorem browse_feed_budget_partial_c2 (extract : Nat → List Post)
    (count : Nat) (page_url : String) (h : urlHasLogin page_url = false) :
    (browse_feed_collect extract count).2.1 ≤ min (count + 2) 10 ∧
    do_browse_feed page_url extract count =
      ⟨Envelope.success
          ⟨(browse_feed_collect extract count).1.take count,
           (browse_feed_collect extract count).1.length⟩,
       (browse_feed_collect extract count).2.1,
       (browse_feed_collect extract count).2.2, true⟩ := by
  constructor
  · have := collect_loop_attempts extract count (min (count + 2) 10) 0 0 []
    simpa [browse_feed_collect] using this
  · simp [do_browse_feed, h]

theorem browse_feed_budget_partial_c2_witness :
    (browse_feed_collect (fun _ => []) 5).2.1 ≤ min (5 + 2) 10 ∧
    do_browse_feed "https://www.linkedin.com/feed/" (fun _ => []) 5 =
      ⟨Envelope.success ⟨[], 0⟩, 7, 7, true⟩ := by
  have h := browse_feed_budget_partial_c2 (fun _ => []) 5
    "https://www.linkedin.com/feed/" (by decide)
  exact ⟨h.1, h.2.trans (by decide)⟩

/-- C3: whenever the bundle file is missing, or the key file is missing, or
decrypting/parsing the stored ciphertext fails (e.g. a truncated bundle),
`load_cookies` returns the absent outcome — `False`, no cookies applied,
files untouched — and, being total, never propagates an exception. -/
theorem load_cookies_failure_absent_c3
    (decryptParse : List Nat → List Nat → Option CookieData)
    (fs : VaultFs) (now : Int)
    (h : fs.cookie_file = none ∨ fs.key_file = none ∨
      ∀ key enc, fs.key_file = some key → fs.cookie_file = some enc →
        decryptParse key enc = none) :
    load_cookies decryptParse fs now = ⟨false, fs, none⟩ := by
  obtain ⟨cf, kf⟩ := fs
  rcases cf with _ | enc
  · rfl
  · rcases kf with _ | key
    · rfl
    · rcases h with h | h | h
      · exact absurd h (by simp)
      · exact absurd h (by simp)
      · have hdp : decryptParse key enc = none := h key enc rfl rfl
        simp [load_cookies, hdp]

theorem load_cookies_failure_absent_c3_witness :
    load_cookies (fun _ _ => none) ⟨some [1, 2, 3], some [9]⟩ 0 =
      ⟨false, ⟨some [1, 2, 3], some [9]⟩, none⟩ :=
  load_cookies_failure_absent_c3 _ _ 0 (Or.inr (Or.inr (fun _ _ _ _ => rfl)))

/-- C4: for a stored, decryptable bundle, `load_cookies` deletes the bundle
file and reports absent exactly when `now - issued_at` strictly exceeds the
86400-second TTL; otherwise it applies the bundle's cookies and keeps the
file.  The TTL-plus-one-second bundle is deleted, the TTL-minus-one-second
bundle is applied (see the witness). -/
theorem load_cookies_ttl_c4
    (decryptParse : List Nat → List Nat → Option CookieData)
    (enc key : List Nat) (data : CookieData) (now : Int)
    (hdp : decryptParse key enc = some data) :
    (86400 < now - data.timestamp →
      load_cookies decryptParse ⟨some enc, some key⟩ now =
        ⟨false, ⟨none, some key⟩, none⟩) ∧
    (now - data.timestamp ≤ 86400 →
      load_cookies decryptParse ⟨some enc, some key⟩ now =
        ⟨true, ⟨some enc, some key⟩, some data.cookies⟩) := by
  constructor
  · intro hexp
    simp [load_cookies, hdp, hexp]
  · intro hfresh
    simp [load_cookies, hdp, not_lt.mpr hfresh]

theorem load_cookies_ttl_c4_witness :
    load_cookies (fun _ _ => some ⟨13599, ["c"]⟩) ⟨some [1], some [2]⟩ 100000 =
      ⟨false, ⟨none, some [2]⟩, none⟩ ∧
    load_cookies (fun _ _ => some ⟨13601, ["c"]⟩) ⟨some [1], some [2]⟩ 100000 =
      ⟨true, ⟨some [1], some [2]⟩, some ["c"]⟩ :=
  ⟨(load_cookies_ttl_c4 _ [1] [2] ⟨13599, ["c"]⟩ 100000 rfl).1 (by decide),
   (load_cookies_ttl_c4 _ [1] [2] ⟨13601, ["c"]⟩ 100000 rfl).2 (by decide)⟩

/-- C5: when the URL observed after navigation indicates a login redirect,
every operation returns the "Not logged in" error immediately: the page
extraction runs zero times and `save_cookies` is not reached — for feed
browsing, profile viewing, profile search, and post interaction alike. -/
theorem login_redirect_short_circuit_c5 (page_url : String)
    (h : urlHasLogin page_url = true) :
    (∀ (extract : Nat → List Post) (count : Nat),
      do_browse_feed page_url extract count =
        ⟨Envelope.error "Not logged in", 0, 0, false⟩) ∧
    (∀ {α : Type} (profile_url : String) (profile : α),
      validProfileUrl profile_url = true →
      do_view_profile profile_url page_url profile =
        ⟨Envelope.error "Not logged in", 0, 0, false⟩) ∧
    (∀ (cands : List ProfileCand) (query : String) (count : Nat),
      do_search_profiles page_url cands query count =
        ⟨Envelope.error "Not logged in", 0, 0, false⟩) ∧
    (∀ {β γ : Type} (post_url : String) (btn : Bool) (post : β)
        (cs : List γ) (action : String) (comment : Option String),
      validPostUrl post_url = true →
      do_interact_post post_url page_url btn post cs action comment =
        ⟨Envelope.error "Not logged in", [PageOp.goto post_url], false⟩) := by
  refine ⟨?_, ?_, ?_, ?_⟩
  · intro extract count
    simp [do_browse_feed, h]
  · intro α profile_url profile hv
    simp [do_view_profile, h, hv]
  · intro cands query count
    simp [do_search_profiles, h]
  · intro β γ post_url btn post cs action comment hp
    simp [do_interact_post, h, hp]

theorem login_redirect_short_circuit_c5_witness :
    do_browse_feed "https://www.linkedin.com/login" (fun _ => []) 5 =
      ⟨Envelope.error "Not logged in", 0, 0, false⟩ ∧
    do_view_profile "https://www.linkedin.com/in/alice"
        "https://www.linkedin.com/login" "profile" =
      ⟨Envelope.error "Not logged in", 0, 0, false⟩ ∧
    do_interact_post "https://www.linkedin.com/posts/x"
        "https://www.linkedin.com/login" true "post" (["c1"] : List String)
        "like" (some "hi") =
      ⟨Envelope.error "Not logged in",
       [PageOp.goto "https://www.linkedin.com/posts/x"], false⟩ := by
  have h := login_redirect_short_circuit_c5 "https://www.linkedin.com/login" (by decide)
  exact ⟨h.1 _ 5, h.2.1 _ "profile" (by decide),
    h.2.2.2 _ true "post" ["c1"] "like" (some "hi") (by decide)⟩

/-- C6 counterexample: `save_cookies` performs no rename at all — in
particular the bundle never appears via a write-to-temp-then-atomic-rename —
and instead writes directly to `sessions/linkedin_cookies.json`. -/
theorem save_cookies_no_rename_c6_cex :
    writesViaRename (save_cookies_ops true "linkedin")
        (cookie_file_path "linkedin") = false ∧
    FsOp.writeFile (cookie_file_path "linkedin") ∈
      save_cookies_ops true "linkedin" := by decide

/-- C6 (amended): `save_cookies` writes the encrypted bundle directly to the
final cookie file, with no temporary file and no rename on any path (key
present or absent), so a write that fails partway can leave a previously
valid bundle corrupted. -/
theorem save_cookies_direct_write_c6 (key_file_exists : Bool) (platform : String) :
    (∀ src dst, FsOp.rename src dst ∉ save_cookies_ops key_file_exists platform) ∧
    writesViaRename (save_cookies_ops key_file_exists platform)
        (cookie_file_path platform) = false ∧
    FsOp.writeFile (cookie_file_path platform) ∈
      save_cookies_ops key_file_exists platform := by
  cases key_file_exists <;>
    simp [save_cookies_ops, setup_sessions_directory_ops, writesViaRename]

/-- C7 counterexample: against a page whose first render exposes no
profiles and a request for 5 items, `do_search_profiles` runs its extraction
script exactly once and never scrolls, whereas the shared collector (as run
by `do_browse_feed` on an equally empty stream) performs
`min(5 + 2, 10) = 7` extract/scroll cycles — so profile search does not use
the scroll-driven collection algorithm. -/
theorem search_profiles_single_shot_c7_cex :
    (do_search_profiles "https://www.linkedin.com/search/results/people/?keywords=q"
        [] "q" 5).extractCalls = 1 ∧
    (do_search_profiles "https://www.linkedin.com/search/results/people/?keywords=q"
        [] "q" 5).scrolls = 0 ∧
    (do_browse_feed "https://www.linkedin.com/feed/" (fun _ => []) 5).extractCalls = 7 ∧
    (do_browse_feed "https://www.linkedin.com/feed/" (fun _ => []) 5).scrolls = 7 ∧
    (1 : Nat) ≠ 7 := by decide

/-- C7 (amended): `do_search_profiles` is single-shot: after the auth check
it runs the page extraction exactly once and issues no scroll step; the
at-most-once-per-item discipline (dedup by profile URL) and the `count` cap
are applied inside that single pass, whose result is returned as a success
envelope. -/
theorem search_profiles_single_pass_c7 (page_url : String)
    (cands : List ProfileCand) (query : String) (count : Nat)
    (h : urlHasLogin page_url = false) :
    (do_search_profiles page_url cands query count).extractCalls = 1 ∧
    (do_search_profiles page_url cands query count).scrolls = 0 ∧
    ((search_profiles_extract count cands).map ProfileRec.url).Nodup ∧
    (search_profiles_extract count cands).length ≤ count ∧
    (do_search_profiles page_url cands query count).result =
      Envelope.success
        ⟨search_profiles_extract count cands,
         (search_profiles_extract count cands).length, query⟩ := by
  obtain ⟨hnd, hlen⟩ := search_profiles_extract_spec count cands
  refine ⟨?_, ?_, hnd, hlen, ?_⟩ <;> simp [do_search_profiles, h]

theorem search_profiles_single_pass_c7_witness :
    (do_search_profiles "https://www.linkedin.com/search/results/people/?keywords=alice"
        [⟨"https://www.linkedin.com/in/alice?miniProfile=1", "Alice Smith",
          "Alice Smith", "Engineer", "Berlin", "1st"⟩] "alice" 5).extractCalls = 1 ∧
    (do_search_profiles "https://www.linkedin.com/search/results/people/?keywords=alice"
        [⟨"https://www.linkedin.com/in/alice?miniProfile=1", "Alice Smith",
          "Alice Smith", "Engineer", "Berlin", "1st"⟩] "alice" 5).scrolls = 0 ∧
    ((search_profiles_extract 5
        [⟨"https://www.linkedin.com/in/alice?miniProfile=1", "Alice Smith",
          "Alice Smith", "Engineer", "Berlin", "1st"⟩]).map ProfileRec.url).Nodup ∧
    (search_profiles_extract 5
        [⟨"https://www.linkedin.com/in/alice?miniProfile=1", "Alice Smith",
          "Alice Smith", "Engineer", "Berlin", "1st"⟩]).length ≤ 5 ∧
    (do_search_profiles "https://www.linkedin.com/search/results/people/?keywords=alice"
        [⟨"https://www.linkedin.com/in/alice?miniProfile=1", "Alice Smith",
          "Alice Smith", "Engineer", "Berlin", "1st"⟩] "alice" 5).result =
      Envelope.success
        ⟨search_profiles_extract 5
            [⟨"https://www.linkedin.com/in/alice?miniProfile=1", "Alice Smith",
              "Alice Smith", "Engineer", "Berlin", "1st"⟩],
         (search_profiles_extract 5
            [⟨"https://www.linkedin.com/in/alice?miniProfile=1", "Alice Smith",
              "Alice Smith", "Engineer", "Berlin", "1st"⟩]).length, "alice"⟩ :=
  search_profiles_single_pass_c7
    "https://www.linkedin.com/search/results/people/?keywords=alice"
    [⟨"https://www.linkedin.com/in/alice?miniProfile=1", "Alice Smith",
      "Alice Smith", "Engineer", "Berlin", "1st"⟩] "alice" 5 (by decide)

/-- C8 counterexample: `save_cookies` (via `setup_sessions_directory`)
creates the sessions directory with mode `0o777`, whose group and other
permission bits are set — the storage is not restricted to the owning
user. -/
theorem sessions_dir_world_access_c8_cex :
    FsOp.mkdir sessions_dir 0o777 ∈ save_cookies_ops true "linkedin" ∧
    modeOwnerOnly 0o777 = false := by decide

/-- C8 (amended): on every save path the sessions directory is created with
the world-accessible mode `0o777`, and the key file and cookie file are
written with default permissions; no owner-only restriction is applied
anywhere in the save path. -/
theorem sessions_dir_mode_c8 (key_file_exists : Bool) (platform : String) :
    FsOp.mkdir sessions_dir 0o777 ∈ save_cookies_ops key_file_exists platform ∧
    modeOwnerOnly 0o777 = false := by
  constructor
  · cases key_file_exists <;>
      simp [save_cookies_ops, setup_sessions_directory_ops]
  · decide

/-- C9: after navigating to a valid profile URL, the session is classified
as not authenticated exactly when the observed URL contains the substring
`login` anywhere — so a genuine profile URL such as
`linkedin.com/in/login-name` (see the witness) is rejected with the
"Not logged in" error, zero extraction calls, and no cookie save. -/
theorem view_profile_login_substring_c9 (profile_url : String) {α : Type}
    (profile : α) (h : validProfileUrl profile_url = true) :
    ((do_view_profile profile_url profile_url profile).result =
        Envelope.error "Not logged in" ∧
      (do_view_profile profile_url profile_url profile).extractCalls = 0 ∧
      (do_view_profile profile_url profile_url profile).savedCookies = false) ↔
    urlHasLogin profile_url = true := by
  unfold do_view_profile
  cases hl : urlHasLogin profile_url <;> simp [h, hl]

theorem view_profile_login_substring_c9_witness :
    validProfileUrl "https://www.linkedin.com/in/login-name" = true ∧
    urlHasLogin "https://www.linkedin.com/in/login-name" = true ∧
    (do_view_profile "https://www.linkedin.com/in/login-name"
        "https://www.linkedin.com/in/login-name" "profile").result =
      Envelope.error "Not logged in" :=
  ⟨by decide, by decide,
   ((view_profile_login_substring_c9 "https://www.linkedin.com/in/login-name"
      "profile" (by decide)).mpr (by decide)).1⟩

/-- C10: two `do_interact_post` invocations on the same post and page state
that differ only in `action` and/or `comment` perform identical page
interactions, save cookies identically, and return the same extracted post
and comments — their envelopes agree once the echoed `action` field is
erased; the `comment` argument never influences the outcome, no like click
and no comment submission ever occurs, and on success the payload's
`action` field is exactly the caller's `action` argument. -/
theorem interact_post_action_irrelevant_c10 {β γ : Type}
    (post_url page_url : String) (btn : Bool) (post : β) (cs : List γ)
    (a₁ a₂ : String) (c₁ c₂ : Option String) :
    do_interact_post post_url page_url btn post cs a₁ c₁ =
      do_interact_post post_url page_url btn post cs a₁ c₂ ∧
    (do_interact_post post_url page_url btn post cs a₁ c₁).pageOps =
      (do_interact_post post_url page_url btn post cs a₂ c₂).pageOps ∧
    (do_interact_post post_url page_url btn post cs a₁ c₁).savedCookies =
      (do_interact_post post_url page_url btn post cs a₂ c₂).savedCookies ∧
    stripAction (do_interact_post post_url page_url btn post cs a₁ c₁).result =
      stripAction (do_interact_post post_url page_url btn post cs a₂ c₂).result ∧
    (∀ t, PageOp.submitComment t ∉
      (do_interact_post post_url page_url btn post cs a₁ c₁).pageOps) ∧
    PageOp.clickLike ∉
      (do_interact_post post_url page_url btn post cs a₁ c₁).pageOps ∧
    (∀ p, (do_interact_post post_url page_url btn post cs a₁ c₁).result =
        Envelope.success p → p.action = a₁) := by
  unfold do_interact_post
  split
  · simp [stripAction]
  · split
    · simp [stripAction]
    · refine ⟨rfl, rfl, rfl, rfl, ?_, ?_, ?_⟩
      · intro t
        cases btn <;> simp [interact_page_ops]
      · cases btn <;> simp [interact_page_ops]
      · intro p hp
        simp only [Envelope.success.injEq] at hp
        rw [← hp]
